import Mathlib

/-!
Verification of the `textedit` terminal editor core (`src/main.rs`).

The Rust source is shallowly embedded below:
* machine integers (`usize`, `u8`) become `Nat`; where the Rust code
  performs a `usize` subtraction, the embedding uses truncated `Nat`
  subtraction and the underflow conditions are tracked separately by
  `tickSubsUnderflowFree`;
* the input stream handed to `read_key` becomes an explicit list of
  `KeyRead` outcomes (a byte, a timeout, or an I/O error), mirroring
  `read_key`'s `Result<Option<u8>, io::Error>`;
* the output stream is an explicit list of bytes threaded through `flush`;
* fallible operations return `Except Unit`-values, mirroring `Result`
  with the error payload abstracted to `Unit`;
* the fields of `struct Editor` that matter to the verified behaviour
  (`curpos`, `size`, `quit`, `framebuf`) become the `Editor` structure;
  the streams and termios settings are passed explicitly instead.
-/

/-- ASCII bytes of a string literal, mirroring Rust `b"..."` literals. -/
def strBytes (s : String) : List Nat :=
  s.toList.map Char.toNat

/-- Embeds `struct UVec2 { x: usize, y: usize }`. -/
structure UVec2 where
  x : Nat
  y : Nat
deriving DecidableEq, Repr

/-- Embeds `nix::libc::winsize` as filled in by the `TIOCGWINSZ` ioctl. -/
structure Winsize where
  ws_row : Nat
  ws_col : Nat
  ws_xpixel : Nat
  ws_ypixel : Nat
deriving DecidableEq, Repr

/-- Embeds `get_window_size`: the ioctl outcome is passed explicitly; on
success the reported `ws_col`/`ws_row` are returned unchanged as `x`/`y`. -/
def get_window_size (ioctlRes : Except Unit Winsize) : Except Unit UVec2 :=
  match ioctlRes with
  | .error er => .error er
  | .ok w => .ok ⟨w.ws_col, w.ws_row⟩

/-- Embeds `ctrl_chord`: `c & 0x1f`. -/
def ctrl_chord (c : Nat) : Nat :=
  c &&& 0x1f

/-- One outcome of `read_key` on the input stream: a byte, a timeout
(`Ok(None)`, from an `UnexpectedEof` read), or a propagated I/O error. -/
inductive KeyRead where
  | timeout
  | byte (b : Nat)
  | err
deriving DecidableEq, Repr

/-- Embeds `read_key`: consumes the head of the modelled input stream.
An exhausted stream behaves like a timed-out read (`Ok(None)`). -/
def read_key : List KeyRead → Except Unit (Option Nat × List KeyRead)
  | [] => .ok (none, [])
  | .timeout :: rest => .ok (none, rest)
  | .byte b :: rest => .ok (some b, rest)
  | .err :: _ => .error ()

def SHOW_CURSOR : List Nat := strBytes "\x1b[?25h"
def HIDE_CURSOR : List Nat := strBytes "\x1b[?25l"
def CLEAR_SCREEN : List Nat := strBytes "\x1b[2J"
def CLEAR_LINE : List Nat := strBytes "\x1b[K"
def CURSOR_TO_START : List Nat := strBytes "\x1b[H"

/-- The banner text `b"Welcome to textedit"` from `Editor::update`. -/
def welcome : List Nat := strBytes "Welcome to textedit"

/-- Embeds the fields of `struct Editor` that the verified behaviour
depends on; streams and termios settings are threaded explicitly. -/
structure Editor where
  curpos : UVec2
  size : UVec2
  quit : Bool
  framebuf : List Nat
deriving DecidableEq, Repr

/-- Embeds the editor state produced by `Editor::new`: cursor at the
origin, empty framebuffer, not quitting, with the queried size. -/
def initEditor (size : UVec2) : Editor :=
  { curpos := ⟨0, 0⟩, size := size, quit := false, framebuf := [] }

/-- Embeds the up-arrow match arm: `if curpos.y > 0 { curpos.y -= 1 }`. -/
def moveUp (e : Editor) : Editor :=
  if e.curpos.y > 0 then { e with curpos := { e.curpos with y := e.curpos.y - 1 } } else e

/-- Embeds the down-arrow match arm:
`if curpos.y < size.y - 1 { curpos.y += 1 }` (truncated subtraction). -/
def moveDown (e : Editor) : Editor :=
  if e.curpos.y < e.size.y - 1 then { e with curpos := { e.curpos with y := e.curpos.y + 1 } } else e

/-- Embeds the right-arrow match arm:
`if curpos.x < size.x - 1 { curpos.x += 1 }` (truncated subtraction). -/
def moveRight (e : Editor) : Editor :=
  if e.curpos.x < e.size.x - 1 then { e with curpos := { e.curpos with x := e.curpos.x + 1 } } else e

/-- Embeds the left-arrow match arm: `if curpos.x > 0 { curpos.x -= 1 }`. -/
def moveLeft (e : Editor) : Editor :=
  if e.curpos.x > 0 then { e with curpos := { e.curpos with x := e.curpos.x - 1 } } else e

/-- Embeds `Editor::handle_input`. Returns the `Ok` boolean of the source
(`false` exactly when the first read timed out), the updated editor, and
the unconsumed remainder of the input stream. The nested reads for escape
sequences mirror the source: a second read that is not `Some(b'[')` drops
the sequence, and the third read's `match` applies the arrow arms. -/
def handle_input (e : Editor) (input : List KeyRead) :
    Except Unit (Bool × Editor × List KeyRead) :=
  match read_key input with
  | .error er => .error er
  | .ok (res, input1) =>
    match res with
    | none => .ok (false, e, input1)
    | some c =>
      if c = ctrl_chord 113 then
        .ok (true, { e with quit := true }, input1)
      else if c = 27 then
        match read_key input1 with
        | .error er => .error er
        | .ok (r2, input2) =>
          if r2 = some 91 then
            match read_key input2 with
            | .error er => .error er
            | .ok (r3, input3) =>
              match r3 with
              | some 65 => .ok (true, moveUp e, input3)
              | some 66 => .ok (true, moveDown e, input3)
              | some 67 => .ok (true, moveRight e, input3)
              | some 68 => .ok (true, moveLeft e, input3)
              | _ => .ok (true, e, input3)
          else .ok (true, e, input2)
      else .ok (true, e, input1)

/-- Repeated `handle_input` calls over a scripted input stream, as the
main loop performs across ticks; `fuel` bounds the number of calls. -/
def runInput : Nat → Editor → List KeyRead → Except Unit Editor
  | 0, e, _ => .ok e
  | _ + 1, e, [] => .ok e
  | fuel + 1, e, k :: input =>
    match handle_input e (k :: input) with
    | .error er => .error er
    | .ok (_, e', rest) => runInput fuel e' rest

/-- Embeds the wait loop `while !self.handle_input()? {}` of
`Editor::update`: retries timed-out reads until a byte is handled.
`none` means the fuel ran out before any byte arrived. -/
def waitInput : Nat → Editor → List KeyRead → Except Unit (Option (Editor × List KeyRead))
  | 0, _, _ => .ok none
  | fuel + 1, e, input =>
    match handle_input e input with
    | .error er => .error er
    | .ok (true, e', rest) => .ok (some (e', rest))
    | .ok (false, e', rest) => waitInput fuel e' rest

/-- Embeds `Editor::print`: appends bytes to the framebuffer. -/
def print (e : Editor) (content : List Nat) : Editor :=
  { e with framebuf := e.framebuf ++ content }

/-- Embeds the `for _ in 0..lmargin { self.print(b" ") }` loop. -/
def printSpaces : Editor → Nat → Editor
  | e, 0 => e
  | e, n + 1 => printSpaces (print e (strBytes " ")) n

/-- Embeds `Editor::flush`: the `write_all`/stream-`flush` outcomes are
passed explicitly; on success the whole framebuffer is appended to the
output stream and the framebuffer is cleared. -/
def flush (e : Editor) (ostream : List Nat) (writeOk flushOk : Bool) :
    Except Unit (Editor × List Nat) :=
  if writeOk then
    if flushOk then .ok ({ e with framebuf := [] }, ostream ++ e.framebuf)
    else .error ()
  else .error ()

/-- Embeds one iteration of the row loop in `Editor::update`: tilde,
clear-line code, the centered banner on row `size.y / 3`, and the
`"\r\n"` separator on every row but the last. -/
def printRow (e : Editor) (i : Nat) : Editor :=
  let e1 := print e (strBytes "~")
  let e2 := print e1 CLEAR_LINE
  let e3 :=
    if i = e2.size.y / 3 then
      print (printSpaces e2 ((e2.size.x - welcome.length) / 2 - 1)) welcome
    else e2
  if i < e3.size.y - 1 then print e3 (strBytes "\r\n") else e3

/-- Embeds `format!("\x1b[{};{}H", curpos.y + 1, curpos.x + 1)`. -/
def cursorPosCode (p : UVec2) : List Nat :=
  strBytes ("\x1b[" ++ Nat.repr (p.y + 1) ++ ";" ++ Nat.repr (p.x + 1) ++ "H")

/-- Embeds the rendering prints of `Editor::update`, up to the first
`flush` call. -/
def updateRender (e : Editor) : Editor :=
  let e1 := print e HIDE_CURSOR
  let e2 := print e1 CURSOR_TO_START
  let e3 := (List.range e2.size.y).foldl printRow e2
  let e4 := print e3 (cursorPosCode e3.curpos)
  print e4 SHOW_CURSOR

/-- Embeds `Editor::update`: render, flush, wait for one handled byte,
then either emit the final clear frame (on quit) or continue. Outcomes of
the two flushes are passed explicitly; `.ok none` means the wait-loop
fuel ran out with no byte handled. -/
def update (fuel : Nat) (e : Editor) (input : List KeyRead) (ostream : List Nat)
    (w1 f1 w2 f2 : Bool) :
    Except Unit (Option (Bool × Editor × List KeyRead × List Nat)) :=
  match flush (updateRender e) ostream w1 f1 with
  | .error er => .error er
  | .ok (e2, os2) =>
    match waitInput fuel e2 input with
    | .error er => .error er
    | .ok none => .ok none
    | .ok (some (e3, rest)) =>
      if e3.quit then
        match flush (print (print e3 CLEAR_SCREEN) CURSOR_TO_START) os2 w2 f2 with
        | .error er => .error er
        | .ok (e4, os3) => .ok (some (true, e4, rest, os3))
      else .ok (some (false, e3, rest, os2))

/-- Observable actions of `fn main`'s loop, in program order. -/
inductive MainAction where
  | tick
  | applyPrevTermSettings
  | reportError
  | exitProcess (code : Nat)
deriving DecidableEq, Repr

/-- Embeds the `loop { match e.update() ... }` dispatch of `fn main` over
a scripted list of tick outcomes: `Ok(true)` breaks and restores the
terminal, `Ok(false)` continues, `Err` restores the terminal, reports the
error, and exits with code 1. An exhausted script means the loop is still
running. -/
def mainLoopTrace : List (Except Unit Bool) → List MainAction
  | [] => []
  | .ok true :: _ => [.tick, .applyPrevTermSettings]
  | .ok false :: rest => .tick :: mainLoopTrace rest
  | .error _ :: _ => [.tick, .applyPrevTermSettings, .reportError, .exitProcess 1]

/-- The banner bytes contributed by row `i` in `Editor::update`:
the centered banner on row `size.y / 3`, nothing elsewhere. -/
def bannerPart (size : UVec2) (i : Nat) : List Nat :=
  if i = size.y / 3 then
    List.replicate ((size.x - welcome.length) / 2 - 1) 32 ++ welcome
  else []

/-- The bytes contributed by one iteration of the row loop. -/
def rowChunk (size : UVec2) (i : Nat) : List Nat :=
  strBytes "~" ++ CLEAR_LINE ++ bannerPart size i
    ++ (if i < size.y - 1 then strBytes "\r\n" else [])

/-- Conditions under which every `usize` subtraction reachable in one
tick of `Editor::update` (including its `handle_input` call) is
underflow-free: `size.y - 1` in the down-arrow guard and row loop,
`size.x - 1` in the right-arrow guard, `size.x - welcome.len()` and
`(size.x - welcome.len()) / 2 - 1` in the banner margin. -/
def tickSubsUnderflowFree (size : UVec2) : Prop :=
  1 ≤ size.y ∧ 1 ≤ size.x ∧ welcome.length ≤ size.x
    ∧ 1 ≤ (size.x - welcome.length) / 2

theorem print_print (e : Editor) (a b : List Nat) :
    print (print e a) b = print e (a ++ b) := by
  simp [print]

theorem print_size (e : Editor) (a : List Nat) : (print e a).size = e.size := rfl

theorem print_curpos (e : Editor) (a : List Nat) : (print e a).curpos = e.curpos := rfl

theorem printSpaces_eq (n : Nat) : ∀ e : Editor, printSpaces e n = print e (List.replicate n 32) := by
  induction n with
  | zero => intro e; simp [printSpaces, print]
  | succ n ih =>
    intro e
    rw [printSpaces, ih, print_print]
    have : strBytes " " = [32] := rfl
    rw [this]
    rw [List.replicate_succ]
    rfl

theorem printRow_eq (e : Editor) (i : Nat) :
    printRow e i = print e (rowChunk e.size i) := by
  simp only [printRow, rowChunk, bannerPart, printSpaces_eq, print_size]
  by_cases h3 : i = e.size.y / 3
  · subst h3
    by_cases hl : e.size.y / 3 < e.size.y - 1 <;>
      simp [hl, print_print, print, List.append_assoc]
  · by_cases hl : i < e.size.y - 1 <;>
      simp [h3, hl, print_print, print, List.append_assoc]

theorem foldl_printRow (l : List Nat) : ∀ e : Editor,
    l.foldl printRow e = print e ((l.map (rowChunk e.size)).flatten) := by
  induction l with
  | nil => intro e; simp [print]
  | cons a t ih =>
    intro e
    simp only [List.foldl_cons, List.map_cons, List.flatten_cons]
    rw [printRow_eq, ih, print_print, print_size]

theorem updateRender_framebuf (e : Editor) :
    (updateRender e).framebuf
      = e.framebuf ++ HIDE_CURSOR ++ CURSOR_TO_START
        ++ ((List.range e.size.y).map (rowChunk e.size)).flatten
        ++ cursorPosCode e.curpos ++ SHOW_CURSOR := by
  simp [updateRender, foldl_printRow, print_print, print, List.append_assoc]

theorem intercalate_singleton (s a : List Nat) :
    List.intercalate s [a] = a := by
  simp [List.intercalate, List.intersperse]

theorem intercalate_two (s x y : List Nat) (t : List (List Nat)) :
    List.intercalate s (x :: y :: t) = x ++ s ++ List.intercalate s (y :: t) := by
  simp [List.intercalate, List.intersperse, List.append_assoc]

theorem intercalate_append_single (s a : List Nat) :
    ∀ l : List (List Nat), l ≠ [] →
      List.intercalate s (l ++ [a]) = List.intercalate s l ++ s ++ a := by
  intro l
  induction l with
  | nil => intro h; exact absurd rfl h
  | cons x t ih =>
    intro _
    cases t with
    | nil => simp [intercalate_two, intercalate_singleton]
    | cons y u =>
      have h2 := ih (by simp)
      simp only [List.cons_append] at h2 ⊢
      rw [intercalate_two, h2, intercalate_two]
      simp [List.append_assoc]

theorem flatten_sep_intercalate (f : Nat → List Nat) (s : List Nat) :
    ∀ m : Nat,
      ((List.range (m + 1)).map (fun i => f i ++ if i < m then s else [])).flatten
        = List.intercalate s ((List.range (m + 1)).map f) := by
  intro m
  induction m with
  | zero =>
    simp [List.range_succ, intercalate_singleton]
  | succ m ih =>
    have hne : (List.range (m + 1)).map f ≠ [] := by
      simp [List.range_succ]
    calc ((List.range (m + 2)).map (fun i => f i ++ if i < m + 1 then s else [])).flatten
        = ((List.range (m + 1)).map (fun i => f i ++ if i < m + 1 then s else [])).flatten
            ++ (f (m + 1) ++ []) := by
          rw [List.range_succ (n := m + 1)]
          simp
      _ = (((List.range m).map (fun i => f i ++ if i < m + 1 then s else [])).flatten
            ++ (f m ++ s)) ++ f (m + 1) := by
          rw [List.range_succ (n := m)]
          simp [Nat.lt_succ_self]
      _ = (((List.range m).map (fun i => f i ++ if i < m then s else [])).flatten
            ++ (f m ++ s)) ++ f (m + 1) := by
          have hmap : (List.range m).map (fun i => f i ++ if i < m + 1 then s else [])
              = (List.range m).map (fun i => f i ++ if i < m then s else []) := by
            apply List.map_congr_left
            intro i hi
            rw [List.mem_range] at hi
            simp [hi, Nat.lt_succ_of_lt hi]
          rw [hmap]
      _ = (((List.range (m + 1)).map (fun i => f i ++ if i < m then s else [])).flatten
            ++ s) ++ f (m + 1) := by
          rw [List.range_succ (n := m)]
          simp [List.append_assoc]
      _ = List.intercalate s ((List.range (m + 1)).map f) ++ s ++ f (m + 1) := by
          rw [ih]
      _ = List.intercalate s ((List.range (m + 2)).map f) := by
          rw [List.range_succ (n := m + 1), List.map_append, List.map_singleton,
            intercalate_append_single s (f (m + 1)) _ hne]

theorem rowChunk_split (size : UVec2) (i : Nat) :
    rowChunk size i
      = (strBytes "~" ++ CLEAR_LINE ++ bannerPart size i)
        ++ (if i < size.y - 1 then strBytes "\r\n" else []) := by
  simp [rowChunk, List.append_assoc]

theorem rowChunks_intercalate (size : UVec2) (h : 1 ≤ size.y) :
    ((List.range size.y).map (rowChunk size)).flatten
      = List.intercalate (strBytes "\r\n")
          ((List.range size.y).map (fun i => strBytes "~" ++ CLEAR_LINE ++ bannerPart size i)) := by
  obtain ⟨m, hy⟩ : ∃ m, size.y = m + 1 := ⟨size.y - 1, by omega⟩
  have hco : ∀ i, rowChunk size i
      = (strBytes "~" ++ CLEAR_LINE ++ bannerPart size i)
        ++ (if i < m then strBytes "\r\n" else []) := by
    intro i
    rw [rowChunk_split, hy]
    simp only [Nat.add_sub_cancel]
  rw [hy, List.map_congr_left (fun i _ => hco i)]
  exact flatten_sep_intercalate (fun i => strBytes "~" ++ CLEAR_LINE ++ bannerPart size i)
    (strBytes "\r\n") m

theorem rowChunk_count_tilde (size : UVec2) (i : Nat) :
    (rowChunk size i).count 126 = 1 := by
  have h1 : (strBytes "~").count 126 = 1 := by decide
  have h2 : CLEAR_LINE.count 126 = 0 := by decide
  have h3 : (bannerPart size i).count 126 = 0 := by
    unfold bannerPart
    split
    · have hw : welcome.count 126 = 0 := by decide
      simp [List.count_append, hw, List.count_replicate]
    · rfl
  have h4 : (if i < size.y - 1 then strBytes "\r\n" else []).count 126 = 0 := by
    split <;> decide
  simp [rowChunk, List.count_append, h1, h2, h3, h4]

theorem flatten_rowChunks_count_aux (size : UVec2) :
    ∀ l : List Nat, ((l.map (rowChunk size)).flatten).count 126 = l.length := by
  intro l
  induction l with
  | nil => rfl
  | cons a t ih =>
    simp only [List.map_cons, List.flatten_cons, List.count_append, List.length_cons,
      rowChunk_count_tilde, ih]
    omega

theorem flatten_rowChunks_count (size : UVec2) :
    (((List.range size.y).map (rowChunk size)).flatten).count 126 = size.y := by
  rw [flatten_rowChunks_count_aux size (List.range size.y), List.length_range]

theorem handle_input_result (e : Editor) (input : List KeyRead) (b : Bool)
    (e' : Editor) (rest : List KeyRead)
    (h : handle_input e input = .ok (b, e', rest)) :
    e' = e ∨ e' = { e with quit := true } ∨ e' = moveUp e ∨ e' = moveDown e
      ∨ e' = moveRight e ∨ e' = moveLeft e := by
  unfold handle_input at h
  repeat' split at h
  all_goals
    first
    | exact Except.noConfusion h
    | (simp only [Except.ok.injEq, Prod.mk.injEq] at h
       obtain ⟨hb, he, hr⟩ := h
       subst he
       simp)

/-- The cursor-in-bounds invariant relative to the editor's own size. -/
def InBounds (e : Editor) : Prop :=
  e.curpos.x < e.size.x ∧ e.curpos.y < e.size.y

theorem moveUp_size (e : Editor) : (moveUp e).size = e.size := by
  unfold moveUp; split <;> rfl

theorem moveDown_size (e : Editor) : (moveDown e).size = e.size := by
  unfold moveDown; split <;> rfl

theorem moveRight_size (e : Editor) : (moveRight e).size = e.size := by
  unfold moveRight; split <;> rfl

theorem moveLeft_size (e : Editor) : (moveLeft e).size = e.size := by
  unfold moveLeft; split <;> rfl

theorem moveUp_inBounds (e : Editor) (h : InBounds e) : InBounds (moveUp e) := by
  unfold InBounds moveUp at *
  split <;> (try simp) <;> omega

theorem moveDown_inBounds (e : Editor) (h : InBounds e) : InBounds (moveDown e) := by
  unfold InBounds moveDown at *
  split <;> (try simp) <;> omega

theorem moveRight_inBounds (e : Editor) (h : InBounds e) : InBounds (moveRight e) := by
  unfold InBounds moveRight at *
  split <;> (try simp) <;> omega

theorem moveLeft_inBounds (e : Editor) (h : InBounds e) : InBounds (moveLeft e) := by
  unfold InBounds moveLeft at *
  split <;> (try simp) <;> omega

theorem handle_input_inBounds (e : Editor) (input : List KeyRead) (b : Bool)
    (e' : Editor) (rest : List KeyRead)
    (h : handle_input e input = .ok (b, e', rest)) (hb : InBounds e) :
    InBounds e' := by
  rcases handle_input_result e input b e' rest h with h1 | h1 | h1 | h1 | h1 | h1 <;> subst h1
  · exact hb
  · exact hb
  · exact moveUp_inBounds e hb
  · exact moveDown_inBounds e hb
  · exact moveRight_inBounds e hb
  · exact moveLeft_inBounds e hb

theorem runInput_inBounds : ∀ (fuel : Nat) (e : Editor) (input : List KeyRead) (e' : Editor),
    runInput fuel e input = .ok e' → InBounds e → InBounds e' := by
  intro fuel
  induction fuel with
  | zero =>
    intro e input e' h hb
    simp only [runInput, Except.ok.injEq] at h
    subst h; exact hb
  | succ fuel ih =>
    intro e input e' h hb
    cases input with
    | nil =>
      simp only [runInput, Except.ok.injEq] at h
      subst h; exact hb
    | cons k rest =>
      rw [runInput] at h
      rcases he : handle_input e (k :: rest) with er | ⟨b2, e2, rest2⟩
      · rw [he] at h; exact Except.noConfusion h
      · rw [he] at h
        exact ih e2 rest2 e' h (handle_input_inBounds e (k :: rest) b2 e2 rest2 he hb)

theorem handle_input_size (e : Editor) (input : List KeyRead) (b : Bool)
    (e' : Editor) (rest : List KeyRead)
    (h : handle_input e input = .ok (b, e', rest)) :
    e'.size = e.size := by
  rcases handle_input_result e input b e' rest h with h1 | h1 | h1 | h1 | h1 | h1 <;> subst h1
  · rfl
  · rfl
  · exact moveUp_size e
  · exact moveDown_size e
  · exact moveRight_size e
  · exact moveLeft_size e

theorem runInput_size : ∀ (fuel : Nat) (e : Editor) (input : List KeyRead) (e' : Editor),
    runInput fuel e input = .ok e' → e'.size = e.size := by
  intro fuel
  induction fuel with
  | zero =>
    intro e input e' h
    simp only [runInput, Except.ok.injEq] at h
    subst h; rfl
  | succ fuel ih =>
    intro e input e' h
    cases input with
    | nil =>
      simp only [runInput, Except.ok.injEq] at h
      subst h; rfl
    | cons k rest =>
      rw [runInput] at h
      rcases he : handle_input e (k :: rest) with er | ⟨b2, e2, rest2⟩
      · rw [he] at h; exact Except.noConfusion h
      · rw [he] at h
        rw [ih e2 rest2 e' h, handle_input_size e (k :: rest) b2 e2 rest2 he]

/-- C1: starting from the origin on a screen with `rows ≥ 1` and
`cols ≥ 1`, any sequence of `handle_input` calls keeps the cursor at
`x < cols` and `y < rows`; moreover the left-arrow arm at `x = 0` leaves
`x = 0` and the up-arrow arm at `y = 0` leaves `y = 0`. -/
theorem cursor_clamping (size : UVec2) (h1 : 1 ≤ size.x) (h2 : 1 ≤ size.y) :
    (∀ (fuel : Nat) (input : List KeyRead) (e' : Editor),
        runInput fuel (initEditor size) input = .ok e' →
          e'.curpos.x < size.x ∧ e'.curpos.y < size.y)
    ∧ (∀ e : Editor, e.curpos.x = 0 → (moveLeft e).curpos.x = 0)
    ∧ (∀ e : Editor, e.curpos.y = 0 → (moveUp e).curpos.y = 0) := by
  refine ⟨?_, ?_, ?_⟩
  · intro fuel input e' h
    have hb : InBounds (initEditor size) := by
      constructor <;> simpa [initEditor]
    have hinv := runInput_inBounds fuel (initEditor size) input e' h hb
    have hsz := runInput_size fuel (initEditor size) input e' h
    rw [InBounds, hsz] at hinv
    exact hinv
  · intro e h
    simp [moveLeft, h]
  · intro e h
    simp [moveUp, h]

/-- Witness for C1 at a 80×24 screen, with the stream ESC `[` `C`. -/
theorem cursor_clamping_witness :
    1 ≤ (UVec2.mk 80 24).x ∧ 1 ≤ (UVec2.mk 80 24).y
      ∧ ((Editor.mk ⟨1, 0⟩ ⟨80, 24⟩ false []).curpos.x < 80
          ∧ (Editor.mk ⟨1, 0⟩ ⟨80, 24⟩ false []).curpos.y < 24) :=
  ⟨by decide, by decide,
    (cursor_clamping ⟨80, 24⟩ (by decide) (by decide)).1 3
      [.byte 27, .byte 91, .byte 67] (Editor.mk ⟨1, 0⟩ ⟨80, 24⟩ false []) rfl⟩

/-- C2: every `Err` outcome of a tick makes `fn main`'s loop restore the
previous terminal settings before reporting the error and exiting with
code 1, whichever tick errs; and `update` propagates failures of its
first flush and of a failing mid-tick read as such `Err` outcomes. -/
theorem fatal_error_restoration :
    (∀ (n : Nat) (rest : List (Except Unit Bool)),
        mainLoopTrace (List.replicate n (.ok false) ++ .error () :: rest)
          = List.replicate n .tick
            ++ [.tick, .applyPrevTermSettings, .reportError, .exitProcess 1])
    ∧ (∀ (fuel : Nat) (e : Editor) (input : List KeyRead) (os : List Nat) (f1 w2 f2 : Bool),
        update fuel e input os false f1 w2 f2 = .error ())
    ∧ (∀ (fuel : Nat) (e : Editor) (rest : List KeyRead) (os : List Nat) (w2 f2 : Bool),
        update (fuel + 1) e (.err :: rest) os true true w2 f2 = .error ()) := by
  refine ⟨?_, fun fuel e input os f1 w2 f2 => rfl, fun fuel e rest os w2 f2 => rfl⟩
  intro n rest
  induction n with
  | zero => rfl
  | succ n ih =>
    simp only [List.replicate_succ, List.cons_append, mainLoopTrace, List.append_eq, ih]

/-- C3 counterexample: byte `0x11` arriving right after an ESC byte is
absorbed by the escape-sequence reads and emits no Quit — the editor
state is unchanged and `quit` stays `false`, with both bytes consumed. -/
theorem quit_mid_escape_cex :
    handle_input (initEditor ⟨80, 24⟩) [.byte 27, .byte 17]
        = .ok (true, initEditor ⟨80, 24⟩, [])
      ∧ (initEditor ⟨80, 24⟩).quit = false :=
  ⟨rfl, rfl⟩

/-- C3 amended: `0x11` emits Quit only when it is the first byte of a
`handle_input` call; arriving as the second or third byte of an escape
sequence it is consumed by the sequence and produces no event. -/
theorem quit_decoding_amended :
    (∀ (e : Editor) (rest : List KeyRead),
        handle_input e (.byte 17 :: rest) = .ok (true, { e with quit := true }, rest))
    ∧ (∀ (e : Editor) (rest : List KeyRead),
        handle_input e (.byte 27 :: .byte 17 :: rest) = .ok (true, e, rest))
    ∧ (∀ (e : Editor) (rest : List KeyRead),
        handle_input e (.byte 27 :: .byte 91 :: .byte 17 :: rest) = .ok (true, e, rest)) :=
  ⟨fun _ _ => rfl, fun _ _ => rfl, fun _ _ => rfl⟩

/-- C4: `ESC [ A/B/C/D` consume exactly three bytes and apply exactly the
corresponding move; `ESC [ Z` consumes three bytes with no event; `ESC`
followed by any byte other than `[` drops the sequence with no event. -/
theorem arrow_key_decoding :
    (∀ (e : Editor) (rest : List KeyRead),
        handle_input e (.byte 27 :: .byte 91 :: .byte 65 :: rest) = .ok (true, moveUp e, rest))
    ∧ (∀ (e : Editor) (rest : List KeyRead),
        handle_input e (.byte 27 :: .byte 91 :: .byte 66 :: rest) = .ok (true, moveDown e, rest))
    ∧ (∀ (e : Editor) (rest : List KeyRead),
        handle_input e (.byte 27 :: .byte 91 :: .byte 67 :: rest) = .ok (true, moveRight e, rest))
    ∧ (∀ (e : Editor) (rest : List KeyRead),
        handle_input e (.byte 27 :: .byte 91 :: .byte 68 :: rest) = .ok (true, moveLeft e, rest))
    ∧ (∀ (e : Editor) (rest : List KeyRead),
        handle_input e (.byte 27 :: .byte 91 :: .byte 90 :: rest) = .ok (true, e, rest))
    ∧ (∀ (e : Editor) (c : Nat) (rest : List KeyRead), c ≠ 91 →
        handle_input e (.byte 27 :: .byte c :: rest) = .ok (true, e, rest)) := by
  refine ⟨fun _ _ => rfl, fun _ _ => rfl, fun _ _ => rfl, fun _ _ => rfl, fun _ _ => rfl, ?_⟩
  intro e c rest hc
  have h17 : ctrl_chord 113 = 17 := rfl
  simp [handle_input, read_key, h17, hc]

/-- Witness for C4: ESC followed by `A` (without a bracket) is dropped. -/
theorem arrow_key_decoding_witness :
    (65 : Nat) ≠ 91
      ∧ handle_input (initEditor ⟨80, 24⟩) [.byte 27, .byte 65]
          = .ok (true, initEditor ⟨80, 24⟩, []) :=
  ⟨by decide, arrow_key_decoding.2.2.2.2.2 (initEditor ⟨80, 24⟩) 65 [] (by decide)⟩

/-- C5 counterexample: a timeout between the ESC byte and the rest of the
sequence discards the pending sequence: the stream
`[ESC, timeout, '[', 'A']` leaves the editor unchanged (no MoveUp),
although applying the up-arrow arm would have moved the cursor. -/
theorem timeout_mid_escape_cex :
    runInput 4 (Editor.mk ⟨0, 1⟩ ⟨80, 24⟩ false [])
        [.byte 27, .timeout, .byte 91, .byte 65]
        = .ok (Editor.mk ⟨0, 1⟩ ⟨80, 24⟩ false [])
      ∧ moveUp (Editor.mk ⟨0, 1⟩ ⟨80, 24⟩ false []) ≠ Editor.mk ⟨0, 1⟩ ⟨80, 24⟩ false [] :=
  ⟨rfl, by decide⟩

/-- C5 amended: a timeout before the first byte of a decode step changes
nothing and the wait loop retries (five timeouts then `0x11` yield
exactly one Quit), but a timeout after ESC, or after ESC `[`, aborts the
pending escape sequence with no event. -/
theorem timeout_transparency_amended :
    (∀ (e : Editor) (rest : List KeyRead),
        handle_input e (.timeout :: rest) = .ok (false, e, rest))
    ∧ (∀ e : Editor,
        waitInput 6 e (List.replicate 5 .timeout ++ [.byte 17])
          = .ok (some ({ e with quit := true }, [])))
    ∧ (∀ (e : Editor) (rest : List KeyRead),
        handle_input e (.byte 27 :: .timeout :: rest) = .ok (true, e, rest))
    ∧ (∀ (e : Editor) (rest : List KeyRead),
        handle_input e (.byte 27 :: .byte 91 :: .timeout :: rest) = .ok (true, e, rest)) :=
  ⟨fun _ _ => rfl, fun _ => rfl, fun _ _ => rfl, fun _ _ => rfl⟩

/-- C6 counterexample: when the ioctl reports zero rows and columns,
`get_window_size` succeeds with the degenerate size instead of failing. -/
theorem window_size_zero_cex :
    get_window_size (.ok ⟨0, 0, 0, 0⟩) = .ok ⟨0, 0⟩ :=
  rfl

/-- C6 amended: `get_window_size` fails exactly when the ioctl fails; on
success it returns the reported columns/rows unchanged, zeros included —
degenerate dimensions are not rejected. -/
theorem window_size_amended :
    (∀ w : Winsize, get_window_size (.ok w) = .ok ⟨w.ws_col, w.ws_row⟩)
    ∧ (∀ er : Unit, get_window_size (.error er) = .error er) :=
  ⟨fun _ => rfl, fun _ => rfl⟩

/-- C7 counterexample: at 80×24 the banner row (row 8) carries 29 leading
spaces, not the `(cols − len(banner)) / 2 = 30` the claim states. -/
theorem banner_margin_cex :
    (printRow (initEditor ⟨80, 24⟩) 8).framebuf
        = strBytes "~" ++ CLEAR_LINE ++ List.replicate 29 32 ++ welcome ++ strBytes "\r\n"
      ∧ (80 - welcome.length) / 2 = 30 ∧ (29 : Nat) ≠ 30 :=
  ⟨by decide, by decide, by decide⟩

/-- C7 amended: the banner row is row `size.y / 3` (which exists whenever
`rows ≥ 1` and is the only banner row); after the tilde and the
clear-line code it carries exactly `(cols − 19) / 2 − 1` leading spaces
before the banner text. -/
theorem banner_placement_amended :
    (∀ e : Editor,
        (printRow e (e.size.y / 3)).framebuf
          = e.framebuf ++ strBytes "~" ++ CLEAR_LINE
            ++ List.replicate ((e.size.x - welcome.length) / 2 - 1) 32 ++ welcome
            ++ (if e.size.y / 3 < e.size.y - 1 then strBytes "\r\n" else []))
    ∧ (∀ (e : Editor) (i : Nat), i ≠ e.size.y / 3 →
        (printRow e i).framebuf
          = e.framebuf ++ strBytes "~" ++ CLEAR_LINE
            ++ (if i < e.size.y - 1 then strBytes "\r\n" else []))
    ∧ (∀ size : UVec2, 1 ≤ size.y → size.y / 3 < size.y) := by
  refine ⟨?_, ?_, ?_⟩
  · intro e
    rw [printRow_eq]
    simp [rowChunk, bannerPart, print, List.append_assoc]
  · intro e i hi
    rw [printRow_eq]
    simp [rowChunk, bannerPart, print, hi, List.append_assoc]
  · intro size h
    exact Nat.div_lt_self (by omega) (by omega)

/-- Witness for C7 at 80×24: the banner row index 8 is within bounds and
carries 29 leading spaces. -/
theorem banner_placement_witness :
    (⟨80, 24⟩ : UVec2).y / 3 < (⟨80, 24⟩ : UVec2).y
      ∧ (printRow (initEditor ⟨80, 24⟩) ((initEditor ⟨80, 24⟩).size.y / 3)).framebuf
          = (initEditor ⟨80, 24⟩).framebuf ++ strBytes "~" ++ CLEAR_LINE
            ++ List.replicate (((initEditor ⟨80, 24⟩).size.x - welcome.length) / 2 - 1) 32
            ++ welcome
            ++ (if (initEditor ⟨80, 24⟩).size.y / 3 < (initEditor ⟨80, 24⟩).size.y - 1
                then strBytes "\r\n" else []) :=
  ⟨banner_placement_amended.2.2 ⟨80, 24⟩ (by decide),
    banner_placement_amended.1 (initEditor ⟨80, 24⟩)⟩

set_option maxRecDepth 4000 in
/-- C8: a render tick appends, in order: hide-cursor, cursor-to-origin,
the `size.y` tilde rows (each tilde immediately followed by the
clear-line code) joined by a `"\r\n"` separator after every row but the
last, the 1-indexed cursor-position code for `(y+1; x+1)`, and
show-cursor; the rows carry exactly `size.y` tilde markers, and at 80×24
with the cursor at the origin the frame has exactly 24 markers and ends
with the `(1;1)` position code before show-cursor. -/
theorem render_frame_structure :
    (∀ e : Editor, e.framebuf = [] → 1 ≤ e.size.y →
        (updateRender e).framebuf
          = HIDE_CURSOR ++ CURSOR_TO_START
            ++ List.intercalate (strBytes "\r\n")
                ((List.range e.size.y).map
                  (fun i => strBytes "~" ++ CLEAR_LINE ++ bannerPart e.size i))
            ++ cursorPosCode e.curpos ++ SHOW_CURSOR)
    ∧ (∀ e : Editor, 1 ≤ e.size.y →
        (List.intercalate (strBytes "\r\n")
            ((List.range e.size.y).map
              (fun i => strBytes "~" ++ CLEAR_LINE ++ bannerPart e.size i))).count 126
          = e.size.y)
    ∧ ((updateRender (initEditor ⟨80, 24⟩)).framebuf).count 126 = 24
    ∧ cursorPosCode ⟨0, 0⟩ = strBytes "\x1b[1;1H"
    ∧ (strBytes "\x1b[1;1H" ++ SHOW_CURSOR).isSuffixOf
        ((updateRender (initEditor ⟨80, 24⟩)).framebuf) = true := by
  refine ⟨?_, ?_, by decide, by decide, by decide⟩
  · intro e hbuf hy
    rw [updateRender_framebuf, hbuf, rowChunks_intercalate e.size hy]
    simp
  · intro e hy
    rw [← rowChunks_intercalate e.size hy]
    exact flatten_rowChunks_count e.size

/-- Witness for C8 at 80×24 with the cursor at the origin. -/
theorem render_frame_structure_witness :
    (initEditor ⟨80, 24⟩).framebuf = [] ∧ 1 ≤ (initEditor ⟨80, 24⟩).size.y
      ∧ (updateRender (initEditor ⟨80, 24⟩)).framebuf
          = HIDE_CURSOR ++ CURSOR_TO_START
            ++ List.intercalate (strBytes "\r\n")
                ((List.range (initEditor ⟨80, 24⟩).size.y).map
                  (fun i => strBytes "~" ++ CLEAR_LINE
                    ++ bannerPart (initEditor ⟨80, 24⟩).size i))
            ++ cursorPosCode (initEditor ⟨80, 24⟩).curpos ++ SHOW_CURSOR :=
  ⟨rfl, by decide, render_frame_structure.1 (initEditor ⟨80, 24⟩) rfl (by decide)⟩

/-- C9: a successful flush appends the entire framebuffer to the output
stream in one step and empties the framebuffer; a failed `write_all`
yields an error instead. -/
theorem flush_postcondition :
    (∀ (e : Editor) (os : List Nat),
        flush e os true true = .ok ({ e with framebuf := [] }, os ++ e.framebuf))
    ∧ (∀ (e : Editor) (os : List Nat) (f : Bool), flush e os false f = .error ()) :=
  ⟨fun _ _ => rfl, fun _ _ _ => rfl⟩

/-- C10: every `usize` subtraction reachable in one tick is
underflow-free exactly when `rows ≥ 1` and `cols ≥ 21`; and the size
query does not reject degenerate dimensions, so nothing enforces this. -/
theorem underflow_precondition :
    (∀ size : UVec2, tickSubsUnderflowFree size ↔ (1 ≤ size.y ∧ 21 ≤ size.x))
    ∧ get_window_size (.ok ⟨0, 0, 0, 0⟩) = .ok ⟨0, 0⟩ := by
  refine ⟨?_, rfl⟩
  intro size
  have hw : welcome.length = 19 := by decide
  unfold tickSubsUnderflowFree
  rw [hw]
  omega

/-- Witness for C10: an 80×24 screen satisfies the precondition. -/
theorem underflow_precondition_witness :
    tickSubsUnderflowFree ⟨80, 24⟩ :=
  (underflow_precondition.1 ⟨80, 24⟩).mpr ⟨by decide, by decide⟩
